import Mathlib

/-!
Shallow embedding of `src-tauri/src/ntfy.rs`: the subscription registry
(`subscribe` / `unsubscribe`), the subscription key computation, the
per-message dispatch (notification id, title/body fallbacks, sink calls)
and the worker's streaming/reconnect loop, together with theorems about
the spec's claims.
-/

namespace Ntfy

/-- The `NtfyMessage` struct of ntfy.rs: id, time (i64), event, topic,
optional message body, optional title, optional tags, optional priority. -/
structure NtfyMessage where
  id : String
  time : Int
  event : String
  topic : String
  message : Option String
  title : Option String
  tags : Option (List String)
  priority : Option Int
deriving Repr, DecidableEq

/-- `server_url.trim_end_matches('/')`: Rust's `trim_end_matches` removes
every trailing occurrence of the pattern, here the character '/'. -/
def trimEndSlash (s : String) : String :=
  String.mk ((s.data.reverse.dropWhile (fun c => c == '/')).reverse)

/-- The subscription key `full_url = format!("{}/{}", base_url, topic)`
where `base_url = server_url.trim_end_matches('/')`. -/
def subKey (serverUrl topic : String) : String :=
  trimEndSlash serverUrl ++ "/" ++ topic

/-- The streaming endpoint `sse_url = format!("{}/sse", full_url_clone)`. -/
def sseUrl (serverUrl topic : String) : String :=
  subKey serverUrl topic ++ "/sse"

/-- `i32::MAX as i64`. -/
def i32Max : Int := 2147483647

/-- The value-level semantics of Rust's `as i32` cast on an i64 value:
wrap into the interval [-2^31, 2^31). -/
def wrapI32 (x : Int) : Int := (x + 2147483648) % 4294967296 - 2147483648

/-- `let notification_id = (msg.time % (i32::MAX as i64)) as i32;` —
Rust's `%` on signed integers is the truncated remainder, `Int.tmod`. -/
def notificationId (time : Int) : Int := wrapI32 (Int.tmod time i32Max)

end Ntfy

namespace Ntfy

/-- A call made to one of the two external sinks during dispatch:
`notifyShow` is `app.notification().builder().id(..).title(..).body(..).show()`,
`emitEvent` is `app.emit("new-message", &payload)` with payload
`FrontendMessage { server_url, message }`. -/
inductive SinkCall where
  | notifyShow (title body : String) (id : Int) : SinkCall
  | emitEvent (channel : String) (serverUrl : String) (msg : NtfyMessage) : SinkCall
deriving Repr, DecidableEq

/-- The dispatch performed for a decoded message whose event is "message":
title falls back to `format!("ntfy: {}", msg.topic)`, body falls back to
the empty string, then the notification is shown and the frontend event
emitted (in that order). -/
def dispatchCalls (baseUrl : String) (msg : NtfyMessage) : List SinkCall :=
  let title := msg.title.getD ("ntfy: " ++ msg.topic)
  let body := msg.message.getD ""
  [SinkCall.notifyShow title body (notificationId msg.time),
   SinkCall.emitEvent "new-message" baseUrl msg]

/-- One event yielded by the `EventSource` stream: `Ok(Event::Open)`,
`Ok(Event::Message(m))` carrying the frame's data payload, or `Err(_)`. -/
inductive SseEvent where
  | evOpen : SseEvent
  | evMessage (data : String) : SseEvent
  | evError : SseEvent
deriving Repr, DecidableEq

/-- The body of the `Ok(Event::Message(message))` arm: attempt
`serde_json::from_str::<NtfyMessage>(&message.data)` (modelled by the
`decode` parameter), and dispatch only when decoding succeeds and
`msg.event == "message"`; otherwise do nothing. -/
def handleFrame (decode : String → Option NtfyMessage) (baseUrl data : String) :
    List SinkCall :=
  match decode data with
  | some msg => if msg.event = "message" then dispatchCalls baseUrl msg else []
  | none => []

/-- The inner `while let Some(event) = es.next().await` loop over the
events of one connection: `Open` only logs, a message frame is handled,
an error closes the source and breaks out of the loop. Returns the sink
calls made during this connection. -/
def runStream (decode : String → Option NtfyMessage) (baseUrl : String) :
    List SseEvent → List SinkCall
  | [] => []
  | SseEvent.evOpen :: rest => runStream decode baseUrl rest
  | SseEvent.evMessage d :: rest =>
      handleFrame decode baseUrl d ++ runStream decode baseUrl rest
  | SseEvent.evError :: _ => []

/-- An observable action of the spawned worker task: issuing the
streaming GET, a sink call, or `tokio::time::sleep(Duration::from_secs(n))`. -/
inductive WorkerAction where
  | connect (url : String) : WorkerAction
  | dispatch (call : SinkCall) : WorkerAction
  | sleepSecs (n : Nat) : WorkerAction
deriving Repr, DecidableEq

/-- One iteration of the worker's outer `loop`: build the request and try
`EventSource::new(req)` (`outcome = none` models the `Err` case where the
inner loop is never entered); on success consume the stream; in every
case the iteration ends with `sleep(Duration::from_secs(5))`. -/
def workerIteration (decode : String → Option NtfyMessage) (baseUrl u : String)
    (outcome : Option (List SseEvent)) : List WorkerAction :=
  WorkerAction.connect u ::
    ((match outcome with
      | none => []
      | some events => (runStream decode baseUrl events).map WorkerAction.dispatch)
     ++ [WorkerAction.sleepSecs 5])

/-- The trace of the worker's outer `loop` across a finite prefix of
connection attempts, each attempt described by its outcome. -/
def workerTrace (decode : String → Option NtfyMessage) (baseUrl u : String) :
    List (Option (List SseEvent)) → List WorkerAction
  | [] => []
  | o :: rest =>
      workerIteration decode baseUrl u o ++ workerTrace decode baseUrl u rest

/-- The `NtfyState` subscriptions map together with bookkeeping of which
worker handles were ever spawned and which were cancelled via `abort()`.
The map `subs` is the `HashMap<String, JoinHandle<()>>`, modelled as an
association list from key to an abstract handle id. -/
structure Registry where
  subs : List (String × Nat)
  nextId : Nat
  spawned : List Nat
  cancelled : List Nat
deriving Repr, DecidableEq

/-- `NtfyState::default()`: an empty subscriptions map. -/
def Registry.empty : Registry := ⟨[], 0, [], []⟩

/-- `subscribe(server_url, topic)`: compute the key; if
`subs.contains_key(&full_url)` return `Ok(())` at once; otherwise spawn a
worker (record a fresh handle id) and `subs.insert(full_url, handle)`. -/
def subscribe (serverUrl topic : String) (r : Registry) :
    Except String Unit × Registry :=
  let key := subKey serverUrl topic
  if (r.subs.lookup key).isSome then
    (Except.ok (), r)
  else
    (Except.ok (),
     { subs := (key, r.nextId) :: r.subs
       nextId := r.nextId + 1
       spawned := r.nextId :: r.spawned
       cancelled := r.cancelled })

/-- `unsubscribe(server_url, topic)`: compute the key; `subs.remove` the
entry if present and `handle.abort()` it; always return `Ok(())`. -/
def unsubscribe (serverUrl topic : String) (r : Registry) :
    Except String Unit × Registry :=
  let key := subKey serverUrl topic
  match r.subs.lookup key with
  | some h =>
      (Except.ok (),
       { r with
         subs := r.subs.filter (fun p => !(p.1 == key))
         cancelled := h :: r.cancelled })
  | none => (Except.ok (), r)

/-- Whether the registry holds an entry for a key. -/
def containsKey (r : Registry) (key : String) : Bool :=
  (r.subs.lookup key).isSome

/-- How many entries of the registry carry a given key. -/
def keyCount (r : Registry) (key : String) : Nat :=
  (r.subs.filter (fun p => p.1 == key)).length

/-- The titles passed to the notification sink in a list of sink calls. -/
def shownTitles (calls : List SinkCall) : List String :=
  calls.filterMap fun c =>
    match c with
    | SinkCall.notifyShow t _ _ => some t
    | _ => none

/-- The bodies passed to the notification sink in a list of sink calls. -/
def shownBodies (calls : List SinkCall) : List String :=
  calls.filterMap fun c =>
    match c with
    | SinkCall.notifyShow _ b _ => some b
    | _ => none

/-- The durations of the sleep actions in a worker trace, in order. -/
def sleepDurations (tr : List WorkerAction) : List Nat :=
  tr.filterMap fun a =>
    match a with
    | WorkerAction.sleepSecs n => some n
    | _ => none

end Ntfy

namespace Ntfy

lemma tmod_neg_left (a b : Int) : Int.tmod (-a) b = -Int.tmod a b := by
  rw [Int.tmod_def, Int.tmod_def, Int.neg_tdiv]
  ring

lemma tmod_bounds (a : Int) {b : Int} (hb : 0 < b) :
    -b < Int.tmod a b ∧ Int.tmod a b < b := by
  rcases le_or_lt 0 a with ha | ha
  · have h1 := Int.tmod_nonneg b ha
    have h2 := Int.tmod_lt_of_pos a hb
    constructor <;> linarith
  · have ha' : 0 ≤ -a := by linarith
    have h1 := Int.tmod_nonneg b ha'
    have h2 := Int.tmod_lt_of_pos (-a) hb
    rw [tmod_neg_left a b] at h1 h2
    constructor <;> linarith

lemma wrapI32_eq_self {x : Int} (h1 : -2147483648 ≤ x) (h2 : x < 2147483648) :
    wrapI32 x = x := by
  unfold wrapI32
  have h3 : 0 ≤ x + 2147483648 := by linarith
  have h4 : x + 2147483648 < 4294967296 := by linarith
  rw [Int.emod_eq_of_lt h3 h4]
  ring

end Ntfy

namespace Ntfy

/-- C2: for every server address `s` and topic `t`, the subscription key
computed from `(s ++ "/", t)` equals the key computed from `(s, t)`: the
trailing path separator is stripped before concatenation, so calls
differing only in a trailing separator map to the identical key. -/
theorem subKey_trailing_slash (s t : String) : subKey (s ++ "/") t = subKey s t := by
  have hd : (s ++ "/").data = s.data ++ ['/'] := by
    simp [String.data_append]
  simp [subKey, trimEndSlash, hd, List.reverse_append]

end Ntfy

namespace Ntfy

/-- C3 counterexample: at timestamp -1 the computed notification handle is
-1, which is negative — refuting the claim that the handle is non-negative
for every timestamp including negative ones. -/
theorem notificationId_neg_counterexample :
    notificationId (-1) = -1 ∧ notificationId (-1) < 0 := by decide

/-- C3 (amended): the notification handle equals the truncated remainder
(Rust `%`) of the timestamp by `i32::MAX`; it is non-negative and below
`i32::MAX` whenever the timestamp is non-negative, and in general lies
strictly between `-i32::MAX` and `i32::MAX` (so it can be negative for
negative timestamps). -/
theorem notificationId_spec (t : Int) :
    notificationId t = Int.tmod t i32Max ∧
    (0 ≤ t → 0 ≤ notificationId t ∧ notificationId t < i32Max) ∧
    -i32Max < notificationId t ∧ notificationId t < i32Max := by
  have hb : (0 : Int) < i32Max := by decide
  obtain ⟨hlo, hhi⟩ := tmod_bounds t hb
  have heq : notificationId t = Int.tmod t i32Max := by
    unfold notificationId
    exact wrapI32_eq_self (by unfold i32Max at hlo ⊢; linarith)
      (by unfold i32Max at hhi ⊢; linarith)
  refine ⟨heq, ?_, ?_, ?_⟩
  · intro ht
    have hn := Int.tmod_nonneg i32Max ht
    exact ⟨heq ▸ hn, heq ▸ hhi⟩
  · exact heq ▸ hlo
  · exact heq ▸ hhi

/-- Witness for C3 (amended) at the concrete timestamp 1700000000. -/
theorem notificationId_spec_witness :
    notificationId 1700000000 = Int.tmod 1700000000 i32Max ∧
    0 ≤ notificationId 1700000000 ∧ notificationId 1700000000 < i32Max :=
  ⟨(notificationId_spec 1700000000).1,
   (notificationId_spec 1700000000).2.1 (by decide)⟩

end Ntfy

namespace Ntfy

lemma lookup_none_filter_eq_nil (key : String) :
    ∀ l : List (String × Nat), l.lookup key = none →
      l.filter (fun p => p.1 == key) = [] := by
  intro l
  induction l with
  | nil => intro _; rfl
  | cons p rest ih =>
    obtain ⟨a, b⟩ := p
    intro h
    rw [List.lookup_cons] at h
    by_cases hk : key = a
    · rw [hk, beq_self_eq_true] at h
      exact absurd h (by simp)
    · rw [beq_eq_false_iff_ne.mpr hk] at h
      have hb : (a == key) = false := beq_eq_false_iff_ne.mpr (Ne.symm hk)
      rw [List.filter_cons]
      simp only [hb]
      simpa using ih h

lemma lookup_filter_self (key : String) :
    ∀ l : List (String × Nat),
      (l.filter (fun p => !(p.1 == key))).lookup key = none := by
  intro l
  induction l with
  | nil => rfl
  | cons p rest ih =>
    obtain ⟨a, b⟩ := p
    rw [List.filter_cons]
    by_cases hk : a = key
    · simp only [hk, beq_self_eq_true, Bool.not_true]
      simpa using ih
    · simp only [beq_eq_false_iff_ne.mpr hk, Bool.not_false, if_true]
      rw [List.lookup_cons, beq_eq_false_iff_ne.mpr (Ne.symm hk)]
      exact ih

lemma lookup_filter_ne (key k : String) (hne : k ≠ key) :
    ∀ l : List (String × Nat),
      (l.filter (fun p => !(p.1 == key))).lookup k = l.lookup k := by
  intro l
  induction l with
  | nil => rfl
  | cons p rest ih =>
    obtain ⟨a, b⟩ := p
    rw [List.filter_cons]
    by_cases hk : a = key
    · subst hk
      rw [List.lookup_cons, beq_eq_false_iff_ne.mpr hne]
      simp only [beq_self_eq_true, Bool.not_true]
      simpa using ih
    · simp only [beq_eq_false_iff_ne.mpr hk, Bool.not_false, if_true]
      rw [List.lookup_cons, List.lookup_cons]
      cases hkp : (k == a) with
      | true => rfl
      | false => exact ih

end Ntfy

namespace Ntfy

/-- C1: if the registry already contains the key computed from
`(server, topic)`, `subscribe` returns success and leaves the registry
unchanged (no worker spawned, no entry replaced); a second `subscribe`
with the same pair right after a first one changes nothing; and starting
from a registry without the key, after a `subscribe` exactly one entry
(one worker) is active for that key. -/
theorem subscribe_idempotent_one_worker (r : Registry) (s t : String) :
    (containsKey r (subKey s t) = true → subscribe s t r = (Except.ok (), r)) ∧
    (subscribe s t (subscribe s t r).2).2 = (subscribe s t r).2 ∧
    (containsKey r (subKey s t) = false →
      keyCount (subscribe s t r).2 (subKey s t) = 1) := by
  refine ⟨?_, ?_, ?_⟩
  · intro h
    simp only [containsKey] at h
    simp [subscribe, h]
  · cases hl : r.subs.lookup (subKey s t) with
    | some v => simp [subscribe, hl]
    | none => simp [subscribe, hl]
  · intro h
    cases hl : r.subs.lookup (subKey s t) with
    | some v => simp [containsKey, hl] at h
    | none =>
      simp only [subscribe, hl, Option.isSome_none, Bool.false_eq_true,
        if_false, keyCount]
      rw [List.filter_cons]
      simp only [beq_self_eq_true, if_true, List.length_cons]
      rw [lookup_none_filter_eq_nil (subKey s t) r.subs hl]
      rfl

/-- Witness for C1 at a concrete registry: subscribing twice to
`("http://h", "t")` from the empty registry is a no-op the second time,
and exactly one entry is active for the key. -/
theorem subscribe_idempotent_one_worker_witness :
    subscribe "http://h" "t" (subscribe "http://h" "t" Registry.empty).2 =
      (Except.ok (), (subscribe "http://h" "t" Registry.empty).2) ∧
    keyCount (subscribe "http://h" "t" Registry.empty).2
      (subKey "http://h" "t") = 1 :=
  ⟨(subscribe_idempotent_one_worker
      (subscribe "http://h" "t" Registry.empty).2 "http://h" "t").1 (by decide),
   (subscribe_idempotent_one_worker Registry.empty "http://h" "t").2.2 (by decide)⟩

end Ntfy

namespace Ntfy

/-- C6: `unsubscribe` always returns success; when the key is absent the
registry is wholly unchanged; when the key is present the entry is
removed, its handle is cancelled, and every other entry — as well as the
spawn bookkeeping — is left unchanged. -/
theorem unsubscribe_frame (r : Registry) (s t : String) :
    (unsubscribe s t r).1 = Except.ok () ∧
    (r.subs.lookup (subKey s t) = none → (unsubscribe s t r).2 = r) ∧
    (∀ h, r.subs.lookup (subKey s t) = some h →
      (unsubscribe s t r).2.subs.lookup (subKey s t) = none ∧
      h ∈ (unsubscribe s t r).2.cancelled ∧
      (∀ k, k ≠ subKey s t →
        (unsubscribe s t r).2.subs.lookup k = r.subs.lookup k) ∧
      (unsubscribe s t r).2.spawned = r.spawned ∧
      (unsubscribe s t r).2.nextId = r.nextId) := by
  refine ⟨?_, ?_, ?_⟩
  · cases hl : r.subs.lookup (subKey s t) with
    | some v => simp [unsubscribe, hl]
    | none => simp [unsubscribe, hl]
  · intro hl
    simp [unsubscribe, hl]
  · intro h hl
    simp only [unsubscribe, hl]
    refine ⟨lookup_filter_self (subKey s t) r.subs, by simp, ?_, by trivial,
      by trivial⟩
    intro k hk
    exact lookup_filter_ne (subKey s t) k hk r.subs

/-- Witness for C6: unsubscribing an absent key from the empty registry
changes nothing, and unsubscribing the key just subscribed removes its
entry and cancels handle 0. -/
theorem unsubscribe_frame_witness :
    (unsubscribe "http://h" "t" Registry.empty).2 = Registry.empty ∧
    (unsubscribe "http://h" "t"
        (subscribe "http://h" "t" Registry.empty).2).2.subs.lookup
      (subKey "http://h" "t") = none ∧
    0 ∈ (unsubscribe "http://h" "t"
        (subscribe "http://h" "t" Registry.empty).2).2.cancelled := by
  refine ⟨(unsubscribe_frame Registry.empty "http://h" "t").2.1 rfl, ?_⟩
  have h := (unsubscribe_frame (subscribe "http://h" "t" Registry.empty).2
    "http://h" "t").2.2 0 (by decide)
  exact ⟨h.1, h.2.1⟩

end Ntfy

namespace Ntfy

/-- C4: a successfully decoded message whose event field is not
"message" produces no sink call at all — it is decoded but silently
dropped. -/
theorem non_message_events_dropped (decode : String → Option NtfyMessage)
    (b d : String) (msg : NtfyMessage) (hdec : decode d = some msg)
    (hev : msg.event ≠ "message") :
    handleFrame decode b d = [] := by
  unfold handleFrame
  rw [hdec]
  simp [hev]

/-- Witness for C4: a frame decoding to a "keepalive" message yields no
sink call. -/
theorem non_message_events_dropped_witness :
    handleFrame
      (fun _ => some ⟨"x", 0, "keepalive", "t", none, none, none, none⟩)
      "http://h" "d" = [] :=
  non_message_events_dropped
    (fun _ => some ⟨"x", 0, "keepalive", "t", none, none, none, none⟩)
    "http://h" "d" ⟨"x", 0, "keepalive", "t", none, none, none, none⟩
    rfl (by decide)

/-- C5: in the dispatch for a qualifying message, the notification title
is the message's title when present and otherwise the fallback
`"ntfy: " ++ topic`; the body is the message's body when present and
otherwise the empty string. -/
theorem dispatch_title_body (b : String) (msg : NtfyMessage) :
    (∀ t, msg.title = some t → shownTitles (dispatchCalls b msg) = [t]) ∧
    (msg.title = none →
      shownTitles (dispatchCalls b msg) = ["ntfy: " ++ msg.topic]) ∧
    (∀ m, msg.message = some m → shownBodies (dispatchCalls b msg) = [m]) ∧
    (msg.message = none → shownBodies (dispatchCalls b msg) = [""]) := by
  refine ⟨?_, ?_, ?_, ?_⟩
  · intro t ht
    simp [dispatchCalls, shownTitles, ht]
  · intro ht
    simp [dispatchCalls, shownTitles, ht]
  · intro m hm
    simp [dispatchCalls, shownBodies, hm]
  · intro hm
    simp [dispatchCalls, shownBodies, hm]

/-- Witness for C5 at a concrete message with no title and no body:
the fallback title and the empty body are dispatched. -/
theorem dispatch_title_body_witness :
    shownTitles (dispatchCalls "http://h"
        ⟨"i", 5, "message", "alerts", none, none, none, none⟩) =
      ["ntfy: " ++ "alerts"] ∧
    shownBodies (dispatchCalls "http://h"
        ⟨"i", 5, "message", "alerts", none, none, none, none⟩) = [""] :=
  ⟨(dispatch_title_body "http://h"
      ⟨"i", 5, "message", "alerts", none, none, none, none⟩).2.1 rfl,
   (dispatch_title_body "http://h"
      ⟨"i", 5, "message", "alerts", none, none, none, none⟩).2.2.2 rfl⟩

/-- C7: a frame whose payload fails to decode produces no dispatch and
does not end the stream loop: consuming the rest of the connection is
exactly as if the malformed frame had not been there, so subsequent
well-formed frames are still dispatched. -/
theorem malformed_frame_skipped (decode : String → Option NtfyMessage)
    (b d : String) (rest : List SseEvent) (hd : decode d = none) :
    runStream decode b (SseEvent.evMessage d :: rest) =
      runStream decode b rest := by
  simp [runStream, handleFrame, hd]

/-- Witness for C7: with a decoder that only accepts the payload "good",
a malformed "bad" frame is skipped and the following "good" frame is
still processed. -/
theorem malformed_frame_skipped_witness :
    runStream
      (fun s => if s = "good"
        then some ⟨"i", 5, "message", "t", some "body", some "T", none, none⟩
        else none)
      "http://h" [SseEvent.evMessage "bad", SseEvent.evMessage "good"] =
    runStream
      (fun s => if s = "good"
        then some ⟨"i", 5, "message", "t", some "body", some "T", none, none⟩
        else none)
      "http://h" [SseEvent.evMessage "good"] :=
  malformed_frame_skipped
    (fun s => if s = "good"
      then some ⟨"i", 5, "message", "t", some "body", some "T", none, none⟩
      else none)
    "http://h" "bad" [SseEvent.evMessage "good"] (by simp)

end Ntfy

namespace Ntfy

lemma sleepDurations_append (l₁ l₂ : List WorkerAction) :
    sleepDurations (l₁ ++ l₂) = sleepDurations l₁ ++ sleepDurations l₂ := by
  simp [sleepDurations, List.filterMap_append]

lemma sleepDurations_iteration (decode : String → Option NtfyMessage)
    (b u : String) (o : Option (List SseEvent)) :
    sleepDurations (workerIteration decode b u o) = [5] := by
  cases o with
  | none => rfl
  | some events =>
    simp [workerIteration, sleepDurations, List.filterMap_cons,
      List.filterMap_append, List.filterMap_map]

/-- C8: across any run of the worker's reconnect loop, every backoff wait
is exactly 5 seconds and there is exactly one such wait per iteration,
independent of how many consecutive failures have occurred: the list of
sleep durations in the trace is `[5, 5, ..., 5]`, one per connection
attempt. -/
theorem backoff_fixed_five (decode : String → Option NtfyMessage)
    (b u : String) (outcomes : List (Option (List SseEvent))) :
    sleepDurations (workerTrace decode b u outcomes) =
      List.replicate outcomes.length 5 := by
  induction outcomes with
  | nil => rfl
  | cons o rest ih =>
    rw [workerTrace, sleepDurations_append, sleepDurations_iteration, ih]
    rfl

/-- C10: the key is the plain concatenation of the normalized server,
"/", and the topic, and is not injective: `("http://h/a", "b")` and
`("http://h", "a/b")` are distinct pairs with the same key, so with the
first pair subscribed, subscribing the second is treated as
already-subscribed (no new worker: spawned stays `[0]`), and
unsubscribing the second cancels the one shared worker. -/
theorem subKey_not_injective_shared_worker :
    subKey "http://h/a" "b" = subKey "http://h" "a/b" ∧
    ("http://h/a", "b") ≠ (("http://h", "a/b") : String × String) ∧
    subscribe "http://h" "a/b" (subscribe "http://h/a" "b" Registry.empty).2 =
      (Except.ok (), (subscribe "http://h/a" "b" Registry.empty).2) ∧
    (subscribe "http://h" "a/b"
        (subscribe "http://h/a" "b" Registry.empty).2).2.spawned = [0] ∧
    (unsubscribe "http://h" "a/b"
        (subscribe "http://h/a" "b" Registry.empty).2).2.subs = [] ∧
    (unsubscribe "http://h" "a/b"
        (subscribe "http://h/a" "b" Registry.empty).2).2.cancelled = [0] := by
  refine ⟨rfl, by decide, rfl, rfl, rfl, rfl⟩

end Ntfy
